import Mathlib

/-!
Shallow embedding of the core `bird_mach` audio pipeline
(`bird_mach/embedding.py`, `bird_mach/analysis.py`, `bird_mach/exporters.py`)
and proofs of the behavioural claims stated about it.

Numeric values are modelled over the rationals; numpy 2-D arrays are
modelled by the `NDArray2` structure, which carries its shape explicitly
(as numpy does) together with its row-major entries.  External numeric
collaborators (the librosa spectral transforms, the UMAP projection, the
audio decoder) are not part of the repository; they are modelled from the
contracts the design document states for them, and every claim proved here
depends on those models only through the stated contracts (shape,
determinism, error behaviour), never through the numeric values the real
libraries would produce.
-/

namespace BirdMach

/-- A numpy 2-D array: explicit shape plus row-major entries.
Matches numpy in that the shape is intrinsic to the value (so a
`(0, n)` array and an `(n, 0)` array are different values even though
both hold no numbers). -/
structure NDArray2 where
  nrows : ℕ
  ncols : ℕ
  entries : List (List ℚ)
  deriving Repr, DecidableEq

/-- Element access with numpy-style 0 default out of range (only used
in-range by the pipeline). -/
def NDArray2.get (A : NDArray2) (i j : ℕ) : ℚ :=
  (A.entries.getD i []).getD j 0

/-- numpy transpose `A.T`: shape `(ncols, nrows)`, entry `(j, i)` of the
result is entry `(i, j)` of the input. -/
def NDArray2.T (A : NDArray2) : NDArray2 :=
  { nrows := A.ncols
    ncols := A.nrows
    entries := (List.range A.ncols).map fun j =>
      (List.range A.nrows).map fun i => A.get i j }

/-- Structure AudioFeatureConfig from bird_mach/embedding.py lines 45-54. -/
structure AudioFeatureConfig where
  sr : ℕ := 22050
  n_fft : ℕ := 2048
  hop_length : ℕ := 512
  n_mels : ℕ := 128
  fmin : ℚ := 20
  fmax : Option ℚ := none
  deriving Repr, DecidableEq

/-- Structure UmapConfig from bird_mach/embedding.py lines 57-64. -/
structure UmapConfig where
  n_neighbors : ℕ := 15
  min_dist : ℚ := 1/10
  metric : String := "cosine"
  random_state : ℕ := 42
  deriving Repr, DecidableEq

/-- Number of analysis frames of a centred short-time transform over a
signal of `n` samples with the given hop length, as produced by the
spectral-transform collaborator: `n / hop + 1`. -/
def numFrames (n hop : ℕ) : ℕ := n / hop + 1

/-- Modelled from the spec: the mel-band power of the spectral-transform
collaborator for band `b` at frame `t` (librosa is not repository
code).  Only its totality and determinism matter to the claims proved
here; the placeholder value is the windowed signal power. -/
def melBandPower (y : List ℚ) (cfg : AudioFeatureConfig) (_b t : ℕ) : ℚ :=
  (((y.drop (t * cfg.hop_length)).take cfg.n_fft).map fun s => s * s).sum

/-- Modelled from the spec: the spectral-transform collaborator
`librosa.feature.melspectrogram`, which returns a power matrix of shape
`(n_mels, n_frames)`.  The shape contract is the part the claims use. -/
def melspectrogram (y : List ℚ) (cfg : AudioFeatureConfig) : NDArray2 :=
  { nrows := cfg.n_mels
    ncols := numFrames y.length cfg.hop_length
    entries := (List.range cfg.n_mels).map fun b =>
      (List.range (numFrames y.length cfg.hop_length)).map fun t =>
        melBandPower y cfg b t }

/-- Modelled from the spec: the decibel conversion applied elementwise by
`librosa.power_to_db` with `ref = max` (librosa is not repository code);
the exact logarithm is irrelevant to every claim, which depend only on
this map being elementwise and shape-preserving. -/
def dbOf (ref p : ℚ) : ℚ := p - ref

/-- Maximum entry of a matrix (the `ref=np.max` reference). -/
def NDArray2.maxEntry (A : NDArray2) : ℚ :=
  (A.entries.map fun row => row.foldl max 0).foldl max 0

/-- The call librosa.power_to_db(mel, ref=np.max): elementwise decibel map,
shape preserved. -/
def power_to_db (A : NDArray2) : NDArray2 :=
  { nrows := A.nrows
    ncols := A.ncols
    entries := A.entries.map fun row => row.map (dbOf A.maxEntry) }

/-- The call librosa.frames_to_time(i, sr, hop_length): centre time in seconds
of frame `i`. -/
def frames_to_time (i : ℕ) (sr hop : ℕ) : ℚ := (i * hop : ℚ) / sr

/-- The call np.mean(A, axis=0): per-column mean over the rows. -/
def meanAxis0 (A : NDArray2) : List ℚ :=
  (List.range A.ncols).map fun j =>
    (((List.range A.nrows).map fun i => A.get i j).sum) / A.nrows

/-- Function extract_log_mel_frames from bird_mach/embedding.py lines 83-118:
mel power matrix, log compression, transpose to frame-major `X`, frame
centre times from `X.shape[0]`, and per-frame mean mel power. -/
def extract_log_mel_frames (y : List ℚ) (sr : ℕ) (cfg : AudioFeatureConfig) :
    NDArray2 × List ℚ × List ℚ :=
  let mel := melspectrogram y cfg
  let log_mel := power_to_db mel
  let X := log_mel.T
  let times_s := (List.range X.nrows).map fun i => frames_to_time i sr cfg.hop_length
  let energy := meanAxis0 mel
  (X, times_s, energy)

/-- Every `stride`-th element of a list, starting from index 0
(numpy slicing `l[::stride]` for a positive stride). -/
def sliceStep : List α → ℕ → List α
  | [], _ => []
  | x :: xs, k => x :: sliceStep (xs.drop (k - 1)) k
termination_by l _ => l.length
decreasing_by
  simp only [List.length_drop, List.length_cons]
  omega

/-- numpy row slicing `A[::k]` for a positive stride `k`: keeps every
`k`-th row, shape `(ceil(nrows / k), ncols)`. -/
def NDArray2.rowStride (A : NDArray2) (k : ℕ) : NDArray2 :=
  { nrows := (A.nrows + k - 1) / k
    ncols := A.ncols
    entries := sliceStep A.entries k }

/-- Function stride_downsample from bird_mach/embedding.py lines 144-150:
returns the inputs unchanged when `stride <= 1`, otherwise slices all
three arrays with the same stride. -/
def stride_downsample (X : NDArray2) (times_s energy : List ℚ) (stride : ℤ) :
    NDArray2 × List ℚ × List ℚ :=
  if stride ≤ 1 then (X, times_s, energy)
  else (X.rowStride stride.toNat, sliceStep times_s stride.toNat,
        sliceStep energy stride.toNat)

section SliceLemmas

variable {α : Type _}

theorem sliceStep_nil (k : ℕ) : sliceStep ([] : List α) k = [] := by
  simp [sliceStep]

theorem sliceStep_cons (x : α) (xs : List α) (k : ℕ) :
    sliceStep (x :: xs) k = x :: sliceStep (xs.drop (k - 1)) k := by
  simp [sliceStep]

/-- The length of every `k`-th element of `l` is the ceiling of
`l.length / k`, written `(l.length + k - 1) / k`. -/
theorem sliceStep_length (k : ℕ) (hk : 1 ≤ k) (l : List α) :
    (sliceStep l k).length = (l.length + k - 1) / k := by
  have main : ∀ (n : ℕ) (l : List α), l.length ≤ n →
      (sliceStep l k).length = (l.length + k - 1) / k := by
    intro n
    induction n with
    | zero =>
      intro l hl
      have : l = [] := List.length_eq_zero.mp (Nat.le_zero.mp hl)
      subst this
      simp [sliceStep_nil, Nat.div_eq_of_lt (by omega : k - 1 < k)]
    | succ n ih =>
      intro l hl
      cases l with
      | nil => simp [sliceStep_nil, Nat.div_eq_of_lt (by omega : k - 1 < k)]
      | cons x xs =>
        rw [sliceStep_cons]
        have hdrop : (xs.drop (k - 1)).length ≤ n := by
          simp only [List.length_drop]
          simp only [List.length_cons] at hl
          omega
        simp only [List.length_cons]
        rw [ih _ hdrop, List.length_drop]
        have hrhs : xs.length + 1 + k - 1 = xs.length + k := by omega
        rw [hrhs, Nat.add_div_right _ (by omega : 0 < k)]
        rcases le_or_lt (k - 1) xs.length with hle | hlt
        · have : xs.length - (k - 1) + k - 1 = xs.length := by omega
          rw [this]
        · have h1 : xs.length - (k - 1) + k - 1 = k - 1 := by omega
          rw [h1, Nat.div_eq_of_lt (by omega : k - 1 < k),
              Nat.div_eq_of_lt (by omega : xs.length < k)]
  exact main l.length l le_rfl

/-- Index `i` of the strided list is index `i * k` of the original list,
including agreement on out-of-range indices (both `none`). -/
theorem sliceStep_getElem? (k : ℕ) (hk : 1 ≤ k) (l : List α) (i : ℕ) :
    (sliceStep l k)[i]? = l[i * k]? := by
  have main : ∀ (n : ℕ) (l : List α), l.length ≤ n → ∀ i : ℕ,
      (sliceStep l k)[i]? = l[i * k]? := by
    intro n
    induction n with
    | zero =>
      intro l hl i
      have : l = [] := List.length_eq_zero.mp (Nat.le_zero.mp hl)
      subst this
      simp [sliceStep_nil]
    | succ n ih =>
      intro l hl i
      cases l with
      | nil => simp [sliceStep_nil]
      | cons x xs =>
        rw [sliceStep_cons]
        cases i with
        | zero => simp
        | succ i =>
          have hdrop : (xs.drop (k - 1)).length ≤ n := by
            simp only [List.length_drop]
            simp only [List.length_cons] at hl
            omega
          rw [List.getElem?_cons_succ, ih _ hdrop i, List.getElem?_drop]
          have hmul : (i + 1) * k = i * k + k := Nat.succ_mul i k
          have hidx : (i + 1) * k = (k - 1 + i * k) + 1 := by omega
          rw [hidx, List.getElem?_cons_succ]
  exact main l.length l le_rfl i

end SliceLemmas

/-- Claim C1: for every waveform and every AudioFeatureConfig,
extract_log_mel_frames returns a feature matrix X, a time array and an
energy array such that the two per-frame scalar arrays have exactly
X.shape[0] elements (and X really has that many rows), so the per-frame
arrays are index-aligned with the feature matrix rows. -/
theorem extract_log_mel_frames_aligned (y : List ℚ) (sr : ℕ) (cfg : AudioFeatureConfig) :
    (extract_log_mel_frames y sr cfg).2.1.length = (extract_log_mel_frames y sr cfg).1.nrows ∧
    (extract_log_mel_frames y sr cfg).2.2.length = (extract_log_mel_frames y sr cfg).1.nrows ∧
    (extract_log_mel_frames y sr cfg).1.entries.length
      = (extract_log_mel_frames y sr cfg).1.nrows := by
  simp [extract_log_mel_frames, melspectrogram, power_to_db, NDArray2.T, meanAxis0]

/-- Claim C2: stride_downsample with stride 1 returns the inputs
unchanged; with an integer stride k greater than 1 it returns arrays of
length the ceiling of n / k (written (n + k - 1) / k) in which element i
is element i * k of the corresponding input, with the identical index
selection applied to the feature matrix rows, the time array and the
energy array. -/
theorem stride_downsample_correct (X : NDArray2) (t e : List ℚ) :
    stride_downsample X t e 1 = (X, t, e) ∧
    ∀ k : ℤ, 1 < k →
      ((stride_downsample X t e k).1.entries.length
          = (X.entries.length + k.toNat - 1) / k.toNat ∧
        (stride_downsample X t e k).2.1.length = (t.length + k.toNat - 1) / k.toNat ∧
        (stride_downsample X t e k).2.2.length = (e.length + k.toNat - 1) / k.toNat) ∧
      (∀ i : ℕ,
        (stride_downsample X t e k).1.entries[i]? = X.entries[i * k.toNat]? ∧
        (stride_downsample X t e k).2.1[i]? = t[i * k.toNat]? ∧
        (stride_downsample X t e k).2.2[i]? = e[i * k.toNat]?) ∧
      (stride_downsample X t e k).1.ncols = X.ncols := by
  constructor
  · simp [stride_downsample]
  · intro k hk
    have hk1 : ¬ k ≤ 1 := by omega
    have hkn : 1 ≤ k.toNat := by omega
    simp only [stride_downsample, if_neg hk1, NDArray2.rowStride]
    exact ⟨⟨sliceStep_length k.toNat hkn X.entries,
            sliceStep_length k.toNat hkn t,
            sliceStep_length k.toNat hkn e⟩,
          fun i => ⟨sliceStep_getElem? k.toNat hkn X.entries i,
            sliceStep_getElem? k.toNat hkn t i,
            sliceStep_getElem? k.toNat hkn e i⟩,
          trivial⟩

/-- Witness for claim C2 at a concrete input: a 3-row matrix with
aligned arrays, stride 2, gives 2 rows. -/
theorem stride_downsample_correct_witness :
    (stride_downsample ⟨3, 1, [[1], [2], [3]]⟩ [10, 11, 12] [20, 21, 22] 2).2.1.length = 2 := by
  have h := (stride_downsample_correct ⟨3, 1, [[1], [2], [3]]⟩
    [10, 11, 12] [20, 21, 22]).2 2 (by decide)
  rw [h.1.2.1]
  rfl

/-- Claim C10: stride_downsample called with any stride at most 1,
including 0 and negative strides, returns the three inputs unchanged
(the identity transform) and never fails. -/
theorem stride_downsample_le_one_identity (X : NDArray2) (t e : List ℚ) (stride : ℤ)
    (h : stride ≤ 1) : stride_downsample X t e stride = (X, t, e) := by
  simp [stride_downsample, h]

/-- Witness for claim C10 at a concrete input: a negative stride is the
identity transform. -/
theorem stride_downsample_le_one_identity_witness :
    stride_downsample ⟨1, 1, [[5]]⟩ [0] [7] (-3) = (⟨1, 1, [[5]]⟩, [0], [7]) :=
  stride_downsample_le_one_identity _ _ _ _ (by decide)

/-- Modelled from the spec: the manifold-projection collaborator
(umap.UMAP(...).fit_transform is library code, not repository code).  By
the contract in sections 4.3 and 6 of the design document it returns an
embedding with one row per input row and n_components columns,
deterministic in the configured seed.  The coordinate values themselves
belong to the collaborator and are modelled by a simple deterministic
function of the seed and the indices; no claim depends on them. -/
def umapFitTransform (n_components : ℕ) (cfg : UmapConfig) (X : NDArray2) : NDArray2 :=
  { nrows := X.nrows
    ncols := n_components
    entries := (List.range X.nrows).map fun i : ℕ =>
      (List.range n_components).map fun j : ℕ =>
        ((cfg.random_state : ℚ) + (i : ℚ) * (n_components : ℚ) + (j : ℚ)) }

/-- The ValueError message raised by compute_umap_3d and compute_umap_2d
when there are too few frames; it names the offending frame count and
the configured neighbor count (embedding.py lines 158-161 and 178-181). -/
def tooFewFramesMsg (nframes n_neighbors : ℕ) : String :=
  "Too few frames (" ++ toString nframes ++ ") for n_neighbors="
    ++ toString n_neighbors ++ ". Increase stride or provide a longer recording."

/-- compute_umap_3d from embedding.py lines 153-170.  The source first
rejects inputs that are not 2-dimensional; an NDArray2 is 2-dimensional
by construction, so that branch cannot fire here, and the remaining
validation is the frame-count check. -/
def compute_umap_3d (X : NDArray2) (cfg : UmapConfig) : Except String NDArray2 :=
  if X.nrows < cfg.n_neighbors then
    .error (tooFewFramesMsg X.nrows cfg.n_neighbors)
  else
    .ok (umapFitTransform 3 cfg X)

/-- compute_umap_2d from embedding.py lines 173-190, identical to
compute_umap_3d except for the target dimensionality. -/
def compute_umap_2d (X : NDArray2) (cfg : UmapConfig) : Except String NDArray2 :=
  if X.nrows < cfg.n_neighbors then
    .error (tooFewFramesMsg X.nrows cfg.n_neighbors)
  else
    .ok (umapFitTransform 2 cfg X)

/-- Claim C3: for every 2-dimensional feature matrix and UmapConfig,
compute_umap_3d and compute_umap_2d fail with the validation error
naming the offending frame count and the configured neighbor count
exactly when the frame count is strictly below the neighbor count; in
particular the boundary case of equal counts succeeds. -/
theorem compute_umap_validation (X : NDArray2) (cfg : UmapConfig) :
    (X.nrows < cfg.n_neighbors →
      compute_umap_3d X cfg = .error (tooFewFramesMsg X.nrows cfg.n_neighbors) ∧
      compute_umap_2d X cfg = .error (tooFewFramesMsg X.nrows cfg.n_neighbors)) ∧
    (cfg.n_neighbors ≤ X.nrows →
      (∃ E, compute_umap_3d X cfg = .ok E) ∧ ∃ E, compute_umap_2d X cfg = .ok E) ∧
    (X.nrows = cfg.n_neighbors →
      (∃ E, compute_umap_3d X cfg = .ok E) ∧ ∃ E, compute_umap_2d X cfg = .ok E) := by
  refine ⟨fun h => ?_, fun h => ?_, fun h => ?_⟩
  · rw [compute_umap_3d, compute_umap_2d, if_pos h, if_pos h]
    exact ⟨rfl, rfl⟩
  · rw [compute_umap_3d, compute_umap_2d, if_neg (by omega), if_neg (by omega)]
    exact ⟨⟨_, rfl⟩, ⟨_, rfl⟩⟩
  · rw [compute_umap_3d, compute_umap_2d, if_neg (by omega), if_neg (by omega)]
    exact ⟨⟨_, rfl⟩, ⟨_, rfl⟩⟩

/-- Witness for claim C3 at concrete inputs: a 1-row matrix fails with
the message naming 1 and 15 under the default config, and a 15-row
matrix (the boundary case) succeeds. -/
theorem compute_umap_validation_witness :
    compute_umap_3d ⟨1, 2, [[0, 0]]⟩ {} = .error (tooFewFramesMsg 1 15) ∧
    ∃ E, compute_umap_3d ⟨15, 1, List.replicate 15 [0]⟩ {} = .ok E := by
  constructor
  · exact ((compute_umap_validation ⟨1, 2, [[0, 0]]⟩ {}).1 (by decide)).1
  · exact ((compute_umap_validation ⟨15, 1, List.replicate 15 [0]⟩ {}).2.2 (by decide)).1

/-- Claim C4: for every 2-dimensional input matrix satisfying the
frame-count precondition, compute_umap_3d returns an embedding with
exactly as many rows as the input and exactly 3 columns, and
compute_umap_2d one with as many rows as the input and exactly 2
columns. -/
theorem compute_umap_shape (X : NDArray2) (cfg : UmapConfig)
    (h : cfg.n_neighbors ≤ X.nrows) :
    (∃ E, compute_umap_3d X cfg = .ok E ∧ E.nrows = X.nrows ∧ E.ncols = 3 ∧
      E.entries.length = X.nrows ∧ ∀ row ∈ E.entries, row.length = 3) ∧
    (∃ E, compute_umap_2d X cfg = .ok E ∧ E.nrows = X.nrows ∧ E.ncols = 2 ∧
      E.entries.length = X.nrows ∧ ∀ row ∈ E.entries, row.length = 2) := by
  constructor
  · refine ⟨umapFitTransform 3 cfg X, ?_, rfl, rfl,
      by simp only [umapFitTransform, List.length_map, List.length_range], ?_⟩
    · rw [compute_umap_3d, if_neg (by omega)]
    · intro row hrow
      simp only [umapFitTransform, List.mem_map] at hrow
      obtain ⟨i, _, hi⟩ := hrow
      rw [← hi]
      simp only [List.length_map, List.length_range]
  · refine ⟨umapFitTransform 2 cfg X, ?_, rfl, rfl,
      by simp only [umapFitTransform, List.length_map, List.length_range], ?_⟩
    · rw [compute_umap_2d, if_neg (by omega)]
    · intro row hrow
      simp only [umapFitTransform, List.mem_map] at hrow
      obtain ⟨i, _, hi⟩ := hrow
      rw [← hi]
      simp only [List.length_map, List.length_range]

/-- Witness for claim C4 at a concrete input: a 15-row, 1-column matrix
under the default config embeds to 15 rows and 3 (respectively 2)
columns. -/
theorem compute_umap_shape_witness :
    ∃ E, compute_umap_3d ⟨15, 1, List.replicate 15 [0]⟩ {} = .ok E ∧
      E.nrows = 15 ∧ E.ncols = 3 ∧ E.entries.length = 15 ∧
      ∀ row ∈ E.entries, row.length = 3 :=
  (compute_umap_shape ⟨15, 1, List.replicate 15 [0]⟩ {} (by decide)).1

/-! Analysis summarizer, from bird_mach/analysis.py.  The per-frame
statistics (rms, spectral centroid, bandwidth, zero-crossing rate) and
the beat and onset estimators are librosa calls; they are modelled below
from the contracts the design document gives in sections 4.4 and 6, as
deterministic functions of the waveform.  The threshold tagging logic of
summarize (lines 150-158) is repository code and is embedded exactly. -/

/-- Mean of a list of rationals (np.mean). -/
def listMean (l : List ℚ) : ℚ := l.sum / l.length

/-- Maximum of a list of rationals (np.max), 0 for the empty list. -/
def listMax (l : List ℚ) : ℚ := l.foldl max 0

/-- Modelled from the spec: librosa.feature.rms per-frame values
(librosa is not repository code); one value per frame, modelled by the
windowed signal power.  No claim depends on the values. -/
def rmsFrames (y : List ℚ) : List ℚ :=
  (List.range (numFrames y.length 512)).map fun t => melBandPower y {} 0 t

/-- Number of sign changes between adjacent samples. -/
def signChanges (l : List ℚ) : ℕ :=
  ((l.zip l.tail).filter fun p => p.1 * p.2 < 0).length

/-- Modelled from the spec: librosa.feature.zero_crossing_rate per-frame
values (librosa is not repository code): the fraction of adjacent sample
pairs in each analysis window whose signs differ. -/
def zcrFrames (y : List ℚ) : List ℚ :=
  (List.range (numFrames y.length 512)).map fun t =>
    (signChanges ((y.drop (t * 512)).take 2048) : ℚ) / 2048

/-- Modelled from the spec: librosa.feature.spectral_centroid per-frame
values in Hz (librosa is not repository code); the value is a
deterministic placeholder and no claim depends on it. -/
def centroidFrames (y : List ℚ) (sr : ℕ) : List ℚ :=
  (List.range (numFrames y.length 512)).map fun t =>
    (sr : ℚ) * melBandPower y {} 0 t / (4 * (melBandPower y {} 0 t + 1))

/-- Modelled from the spec: librosa.feature.spectral_bandwidth per-frame
values in Hz (librosa is not repository code); deterministic
placeholder. -/
def bandwidthFrames (y : List ℚ) (sr : ℕ) : List ℚ :=
  (List.range (numFrames y.length 512)).map fun t =>
    (sr : ℚ) * melBandPower y {} 0 t / (8 * (melBandPower y {} 0 t + 1))

/-- Modelled from the spec: the tempo estimate of
librosa.beat.beat_track (librosa is not repository code), a
deterministic function of the waveform and sample rate; no claim
depends on the value. -/
def librosaTempo (y : List ℚ) (sr : ℕ) : ℚ := (60 * y.length : ℚ) / (sr + 1)

/-- Modelled from the spec: the beat frames of librosa.beat.beat_track
(librosa is not repository code); deterministic placeholder. -/
def librosaBeatFrames (y : List ℚ) (sr : ℕ) : List ℕ :=
  List.range (y.length / (512 * (sr + 1)))

/-- BeatResult from bird_mach/analysis.py lines 31-37. -/
structure BeatResult where
  tempo_bpm : ℚ
  beat_times_s : List ℚ
  beat_count : ℕ
  deriving Repr, DecidableEq

/-- OnsetResult from bird_mach/analysis.py lines 16-28 (without the
derived mean_interval_s property, which no claim mentions). -/
structure OnsetResult where
  times_s : List ℚ
  strengths : List ℚ
  count : ℕ
  deriving Repr, DecidableEq

/-- track_beats from bird_mach/analysis.py lines 40-48. -/
def track_beats (y : List ℚ) (sr : ℕ) : BeatResult :=
  let frames := librosaBeatFrames y sr
  { tempo_bpm := librosaTempo y sr
    beat_times_s := frames.map fun f => frames_to_time f sr 512
    beat_count := frames.length }

/-- Modelled from the spec: the onset frames of
librosa.onset.onset_detect (librosa is not repository code);
deterministic placeholder. -/
def librosaOnsetFrames (y : List ℚ) (sr : ℕ) : List ℕ :=
  List.range (y.length / (1024 * (sr + 1)))

/-- detect_onsets from bird_mach/analysis.py lines 51-65. -/
def detect_onsets (y : List ℚ) (sr : ℕ) : OnsetResult :=
  let frames := librosaOnsetFrames y sr
  { times_s := frames.map fun f => frames_to_time f sr 512
    strengths := frames.map fun _ => 1
    count := frames.length }

/-- AnalysisSummary from bird_mach/analysis.py lines 124-137. -/
structure AnalysisSummary where
  duration_s : ℚ
  sample_rate : ℕ
  rms_mean : ℚ
  rms_max : ℚ
  spectral_centroid_mean : ℚ
  spectral_bandwidth_mean : ℚ
  zero_crossing_rate_mean : ℚ
  tempo_bpm : ℚ
  onset_count : ℕ
  tags : List String
  deriving Repr, DecidableEq

/-- The tag derivation of summarize, bird_mach/analysis.py lines
150-158: an if / elif pair on the tempo, then two independent
threshold checks, appended in source order. -/
def deriveTags (tempo_bpm zcr_mean centroid_mean : ℚ) : List String :=
  (if 120 < tempo_bpm then ["fast-tempo"]
   else if tempo_bpm < 80 then ["slow-tempo"] else []) ++
  ((if 1/10 < zcr_mean then ["noisy"] else []) ++
   (if 3000 < centroid_mean then ["bright"] else []))

/-- summarize from bird_mach/analysis.py lines 140-171. -/
def summarize (y : List ℚ) (sr : ℕ) : AnalysisSummary :=
  let duration := (y.length : ℚ) / sr
  let rms := rmsFrames y
  let centroid := centroidFrames y sr
  let bw := bandwidthFrames y sr
  let zcr := zcrFrames y
  let beat_result := track_beats y sr
  let onset_result := detect_onsets y sr
  { duration_s := duration
    sample_rate := sr
    rms_mean := listMean rms
    rms_max := listMax rms
    spectral_centroid_mean := listMean centroid
    spectral_bandwidth_mean := listMean bw
    zero_crossing_rate_mean := listMean zcr
    tempo_bpm := beat_result.tempo_bpm
    onset_count := onset_result.count
    tags := deriveTags beat_result.tempo_bpm (listMean zcr) (listMean centroid) }

theorem deriveTags_spec (t z c : ℚ) :
    (("fast-tempo" ∈ deriveTags t z c) ↔ 120 < t) ∧
    (("slow-tempo" ∈ deriveTags t z c) ↔ t < 80) ∧
    ¬("fast-tempo" ∈ deriveTags t z c ∧ "slow-tempo" ∈ deriveTags t z c) ∧
    (80 ≤ t ∧ t ≤ 120 →
      "fast-tempo" ∉ deriveTags t z c ∧ "slow-tempo" ∉ deriveTags t z c) ∧
    (("noisy" ∈ deriveTags t z c) ↔ 1/10 < z) ∧
    (("bright" ∈ deriveTags t z c) ↔ 3000 < c) ∧
    (deriveTags t z c).length ≤ 3 := by
  unfold deriveTags
  split_ifs with h1 h2 h3 h4 <;> simp_all <;> try linarith

/-- Claim C5: summarize derives tags by threshold rules: tempo above 120
adds fast-tempo, tempo below 80 adds slow-tempo, these two are mutually
exclusive and a tempo in the closed interval from 80 to 120 yields
neither; mean zero-crossing rate above 1/10 adds noisy and mean
spectral centroid above 3000 adds bright, each independently of the
tempo tags, so between zero and three tags apply. -/
theorem summarize_tag_rules (y : List ℚ) (sr : ℕ) :
    (("fast-tempo" ∈ (summarize y sr).tags) ↔ 120 < (summarize y sr).tempo_bpm) ∧
    (("slow-tempo" ∈ (summarize y sr).tags) ↔ (summarize y sr).tempo_bpm < 80) ∧
    ¬("fast-tempo" ∈ (summarize y sr).tags ∧ "slow-tempo" ∈ (summarize y sr).tags) ∧
    (80 ≤ (summarize y sr).tempo_bpm ∧ (summarize y sr).tempo_bpm ≤ 120 →
      "fast-tempo" ∉ (summarize y sr).tags ∧ "slow-tempo" ∉ (summarize y sr).tags) ∧
    (("noisy" ∈ (summarize y sr).tags) ↔
      1/10 < (summarize y sr).zero_crossing_rate_mean) ∧
    (("bright" ∈ (summarize y sr).tags) ↔
      3000 < (summarize y sr).spectral_centroid_mean) ∧
    (summarize y sr).tags.length ≤ 3 :=
  deriveTags_spec (track_beats y sr).tempo_bpm (listMean (zcrFrames y))
    (listMean (centroidFrames y sr))

/-- Witness for claim C5 at a concrete input: the two-sample waveform at
the degenerate sample rate 0 has modelled tempo exactly 120, which is in
the closed interval, so neither tempo tag applies. -/
theorem summarize_tag_rules_witness :
    "fast-tempo" ∉ (summarize [1, 1] 0).tags ∧ "slow-tempo" ∉ (summarize [1, 1] 0).tags :=
  (summarize_tag_rules [1, 1] 0).2.2.2.1
    ⟨by norm_num [summarize, track_beats, librosaTempo],
     by norm_num [summarize, track_beats, librosaTempo]⟩

/-- ColorBy from bird_mach/embedding.py line 20: the Literal type of the
three color modes. -/
inductive ColorBy
  | time
  | energy
  | flatness
  deriving Repr, DecidableEq

/-- The color-mode resolver from bird_mach/embedding.py lines 242-254:
time resolves to the time array, flatness to the flatness array when one
was supplied, and everything else to the energy array. -/
def _marker_values (color_by : ColorBy) (times_s energy : List ℚ)
    (flatness : Option (List ℚ)) : List ℚ × String :=
  if color_by = ColorBy.time then (times_s, "time (s)")
  else if color_by = ColorBy.flatness ∧ flatness.isSome then
    (flatness.getD [], "flatness")
  else (energy, "energy")

/-- Claim C8: color-mode resolution: mode time always returns the time
array and mode energy always returns the energy array; mode flatness
returns the flatness array exactly when one was supplied and otherwise
returns the energy array, never failing. -/
theorem marker_values_resolution (t e : List ℚ) :
    (∀ f, _marker_values ColorBy.time t e f = (t, "time (s)")) ∧
    (∀ f, _marker_values ColorBy.energy t e f = (e, "energy")) ∧
    (∀ fl, _marker_values ColorBy.flatness t e (some fl) = (fl, "flatness")) ∧
    _marker_values ColorBy.flatness t e none = (e, "energy") := by
  refine ⟨fun f => ?_, fun f => ?_, fun fl => ?_, ?_⟩ <;> simp [_marker_values]

/-- Modelled from the spec: the filesystem and the decoder collaborator
of section 6 (pathlib existence check and librosa.load are not
repository code): an environment giving, per path, whether the path
exists and what waveform and sample rate the decoder produces for it. -/
structure DecoderEnv where
  pathExists : String → Bool
  decode : String → ℕ → List ℚ × ℕ

/-- load_audio_mono_from_path from bird_mach/embedding.py lines 71-80:
missing path means a FileNotFoundError, an empty decoded waveform means
a ValueError, otherwise the waveform and its sample rate are returned. -/
def load_audio_mono_from_path (env : DecoderEnv) (audio_path : String) (sr : ℕ) :
    Except String (List ℚ × ℕ) :=
  if env.pathExists audio_path = false then
    .error ("Input audio not found: " ++ audio_path)
  else
    let yl := env.decode audio_path sr
    if yl.1.length = 0 then .error ("Loaded empty audio: " ++ audio_path)
    else .ok yl

/-- Claim C9: load_audio_mono_from_path fails with a load error exactly
when the source path does not exist or the file decodes to an empty
waveform; for every existing path decoding to a non-empty waveform it
returns the decoded waveform and sample rate without error. -/
theorem load_audio_error_iff (env : DecoderEnv) (p : String) (sr : ℕ) :
    ((∃ msg, load_audio_mono_from_path env p sr = .error msg) ↔
      (env.pathExists p = false ∨ (env.decode p sr).1.length = 0)) ∧
    (env.pathExists p = true → (env.decode p sr).1.length ≠ 0 →
      load_audio_mono_from_path env p sr = .ok (env.decode p sr)) := by
  simp only [load_audio_mono_from_path]
  by_cases hp : env.pathExists p = false
  · simp [hp]
  · have hp2 : env.pathExists p = true := by
      revert hp
      cases env.pathExists p <;> simp
    by_cases hl : (env.decode p sr).1.length = 0
    · simp [hp2, hl]
    · simp [hp2, hl]

/-- Witness for claim C9 at a concrete input: an existing path whose
decode result is a one-sample waveform loads successfully. -/
theorem load_audio_error_iff_witness :
    load_audio_mono_from_path ⟨fun _ => true, fun _ _ => ([1], 22050)⟩ "bird.wav" 22050
      = .ok ([1], 22050) :=
  (load_audio_error_iff ⟨fun _ => true, fun _ _ => ([1], 22050)⟩ "bird.wav" 22050).2
    rfl (by decide)

/-! JSON export, from bird_mach/exporters.py.  The json.dumps / json.loads
pair is Python standard library code; it is modelled from the
serialization-collaborator contract of section 6 at the level of JSON
value trees, with JSON integers and JSON decimal numbers kept distinct
exactly as the Python parser distinguishes them.  The _default hook of
to_json (exporters.py lines 14-24) is repository code and is embedded
exactly: numpy arrays become plain nested lists via tolist, numpy
scalars become Python scalars, everything else is the standard
encoding. -/

/-- A Python value as it can appear in an analysis record handed to
to_json: primitive scalars, numpy arrays, plain lists, and string-keyed
dicts. -/
inductive PyVal where
  | pstr (s : String)
  | pint (n : ℤ)
  | pfloat (q : ℚ)
  | pbool (b : Bool)
  | pnone
  | parray (elems : List PyVal)
  | plist (elems : List PyVal)
  | pdict (entries : List (String × PyVal))

/-- A JSON value tree, the output of the serialization collaborator.
JSON integer literals and JSON decimal literals are distinct, as they
are to the Python parser. -/
inductive JVal where
  | jnull
  | jbool (b : Bool)
  | jint (n : ℤ)
  | jfloat (q : ℚ)
  | jstr (s : String)
  | jarr (elems : List JVal)
  | jobj (entries : List (String × JVal))

/-- json.dumps with the _default hook of to_json (exporters.py lines
14-24): scalars encode to the corresponding JSON scalars, numpy arrays
and lists to JSON arrays of their encoded elements, dicts to JSON
objects. -/
def encodeVal : PyVal → JVal
  | .pstr s => .jstr s
  | .pint n => .jint n
  | .pfloat q => .jfloat q
  | .pbool b => .jbool b
  | .pnone => .jnull
  | .parray l => .jarr (l.attach.map fun x => encodeVal x.1)
  | .plist l => .jarr (l.attach.map fun x => encodeVal x.1)
  | .pdict l => .jobj (l.attach.map fun p => (p.1.1, encodeVal p.1.2))
decreasing_by
  · have := List.sizeOf_lt_of_mem x.2
    simp only [PyVal.parray.sizeOf_spec]
    omega
  · have := List.sizeOf_lt_of_mem x.2
    simp only [PyVal.plist.sizeOf_spec]
    omega
  · have hm := List.sizeOf_lt_of_mem p.2
    rcases p with ⟨⟨s, v⟩, hp⟩
    simp only [PyVal.pdict.sizeOf_spec, Prod.mk.sizeOf_spec] at *
    omega

/-- Modelled from the spec: a standard JSON parser (json.loads is Python
standard library code): JSON null, booleans, integer literals, decimal
literals and strings decode to the corresponding Python scalars, JSON
arrays decode to plain Python lists, JSON objects to dicts. -/
def decodeVal : JVal → PyVal
  | .jnull => .pnone
  | .jbool b => .pbool b
  | .jint n => .pint n
  | .jfloat q => .pfloat q
  | .jstr s => .pstr s
  | .jarr l => .plist (l.attach.map fun x => decodeVal x.1)
  | .jobj l => .pdict (l.attach.map fun p => (p.1.1, decodeVal p.1.2))
decreasing_by
  · have := List.sizeOf_lt_of_mem x.2
    simp only [JVal.jarr.sizeOf_spec]
    omega
  · have hm := List.sizeOf_lt_of_mem p.2
    rcases p with ⟨⟨s, v⟩, hp⟩
    simp only [JVal.jobj.sizeOf_spec, Prod.mk.sizeOf_spec] at *
    omega

/-- to_json from bird_mach/exporters.py lines 12-26, at the JSON value
level: a record is a dict, serialized by json.dumps with the _default
hook. -/
def to_json (data : List (String × PyVal)) : JVal := encodeVal (.pdict data)

/-- Whether a Python value is a primitive scalar (str, int, float, bool,
None). -/
def isPrim : PyVal → Bool
  | .pstr _ => true
  | .pint _ => true
  | .pfloat _ => true
  | .pbool _ => true
  | .pnone => true
  | _ => false

theorem encodeVal_parray (l : List PyVal) :
    encodeVal (.parray l) = .jarr (l.map encodeVal) := by
  rw [encodeVal]
  exact congrArg JVal.jarr (List.attach_map_coe l encodeVal)

theorem encodeVal_pdict (l : List (String × PyVal)) :
    encodeVal (.pdict l) = .jobj (l.map fun p => (p.1, encodeVal p.2)) := by
  rw [encodeVal]
  exact congrArg JVal.jobj (List.attach_map_coe l fun q => (q.1, encodeVal q.2))

theorem decodeVal_jarr (l : List JVal) :
    decodeVal (.jarr l) = .plist (l.map decodeVal) := by
  rw [decodeVal]
  exact congrArg PyVal.plist (List.attach_map_coe l decodeVal)

theorem decodeVal_jobj (l : List (String × JVal)) :
    decodeVal (.jobj l) = .pdict (l.map fun p => (p.1, decodeVal p.2)) := by
  rw [decodeVal]
  exact congrArg PyVal.pdict (List.attach_map_coe l fun q => (q.1, decodeVal q.2))

/-- Decoding inverts encoding on primitive scalars. -/
theorem decode_encode_prim (v : PyVal) (h : isPrim v = true) :
    decodeVal (encodeVal v) = v := by
  cases v <;> simp_all [isPrim, encodeVal, decodeVal]

/-- Claim C6: a record of primitive scalar fields encoded with to_json
and decoded with a standard JSON parser is the identical record; a field
holding a numpy array is encoded as a plain list of the encoded array
elements in sequence, and for scalar elements that list decodes back to
the plain list of exactly those elements. -/
theorem to_json_roundtrip (entries : List (String × PyVal))
    (hprim : ∀ p ∈ entries, isPrim p.2 = true) :
    decodeVal (to_json entries) = .pdict entries ∧
    (∀ l : List PyVal, encodeVal (.parray l) = .jarr (l.map encodeVal)) ∧
    (∀ l : List PyVal, (∀ v ∈ l, isPrim v = true) →
      decodeVal (encodeVal (.parray l)) = .plist l) := by
  refine ⟨?_, encodeVal_parray, fun l hl => ?_⟩
  · rw [to_json, encodeVal_pdict, decodeVal_jobj, List.map_map]
    congr 1
    conv_rhs => rw [← List.map_id entries]
    apply List.map_congr_left
    intro p hp
    simp [Function.comp, decode_encode_prim _ (hprim p hp)]
  · rw [encodeVal_parray, decodeVal_jarr, List.map_map]
    congr 1
    conv_rhs => rw [← List.map_id l]
    apply List.map_congr_left
    intro v hv
    exact decode_encode_prim v (hl v hv)

/-- Witness for claim C6 at a concrete input: a five-field record with
one field of each primitive kind round-trips, and a two-element float
array decodes back to the plain list of its elements. -/
theorem to_json_roundtrip_witness :
    decodeVal (to_json [("name", .pstr "test"), ("score", .pfloat (1/2)),
        ("count", .pint 3), ("flag", .pbool true), ("extra", .pnone)])
      = .pdict [("name", .pstr "test"), ("score", .pfloat (1/2)),
        ("count", .pint 3), ("flag", .pbool true), ("extra", .pnone)] ∧
    decodeVal (encodeVal (.parray [.pfloat 1, .pfloat 2]))
      = .plist [.pfloat 1, .pfloat 2] := by
  have h := to_json_roundtrip [("name", .pstr "test"), ("score", .pfloat (1/2)),
      ("count", .pint 3), ("flag", .pbool true), ("extra", .pnone)]
    (by intro p hp; fin_cases hp <;> rfl)
  exact ⟨h.1, h.2.2 [.pfloat 1, .pfloat 2] (by intro v hv; fin_cases hv <;> rfl)⟩

/-! CSV export, from bird_mach/exporters.py lines 35-66.  The embedding
is at the level of the rows of cells handed to the csv.writer (the
writer itself is Python standard library code that joins the cells of
each row with commas); the header construction, the row loop, and the
fixed-precision cell formatting are repository code and are embedded
exactly, including the empty cell emitted when a feature column is
shorter than the time array. -/

/-- The decimal digit string of n mod 10 to the prec, left-padded with
zeros to exactly prec characters, most significant digit first. -/
def natDigitsPadded (prec n : ℕ) : String :=
  String.mk ((List.range prec).map fun i =>
    Char.ofNat (48 + n / 10 ^ (prec - 1 - i) % 10))

/-- Modelled from the spec: Python fixed-point float formatting
(f-strings with .4f and .6f in exporters.py lines 61-63): the value is
scaled by 10 to the prec, rounded to an integer, and printed as a sign,
the integer part, a point, and exactly prec fractional digits. -/
def fmtFixed (prec : ℕ) (x : ℚ) : String :=
  let scaled : ℤ := round (x * (10 : ℚ) ^ prec)
  let sign := if scaled < 0 then "-" else ""
  sign ++ toString (scaled.natAbs / 10 ^ prec) ++ "."
    ++ natDigitsPadded prec (scaled.natAbs % 10 ^ prec)

/-- features_to_csv from bird_mach/exporters.py lines 35-66, as the list
of rows of cells: a header row of time_s followed by the column names in
insertion order, then one row per timestamp holding the time formatted
to 4 decimal places and each feature value formatted to 6 decimal
places (or an empty cell if that column is shorter). -/
def features_to_csv (times_s : List ℚ) (columns : List (String × List ℚ)) :
    List (List String) :=
  ("time_s" :: columns.map Prod.fst) ::
    (List.range times_s.length).map fun i =>
      fmtFixed 4 (times_s.getD i 0) ::
        columns.map fun c =>
          if i < c.2.length then fmtFixed 6 (c.2.getD i 0) else ""

theorem natDigitsPadded_length (prec n : ℕ) :
    (natDigitsPadded prec n).length = prec := by
  simp [natDigitsPadded, String.length]

/-- fmtFixed always renders with a point followed by exactly prec
fractional digits. -/
theorem fmtFixed_decimals (prec : ℕ) (x : ℚ) :
    ∃ intPart fracPart, fmtFixed prec x = intPart ++ "." ++ fracPart ∧
      fracPart.length = prec :=
  ⟨_, _, rfl, natDigitsPadded_length _ _⟩

/-- Claim C7: features_to_csv yields a header row of exactly time_s
followed by the supplied column names in insertion order, a total of
1 + frame_count rows, and rows whose cells are the time to 4 decimal
places followed by each feature value to 6 decimal places. -/
theorem features_to_csv_spec (times_s : List ℚ) (columns : List (String × List ℚ))
    (haligned : ∀ c ∈ columns, c.2.length = times_s.length) :
    (features_to_csv times_s columns).length = 1 + times_s.length ∧
    (features_to_csv times_s columns).head? = some ("time_s" :: columns.map Prod.fst) ∧
    (∀ i, i < times_s.length →
      (features_to_csv times_s columns)[i + 1]? =
        some (fmtFixed 4 (times_s.getD i 0) ::
          columns.map fun c => fmtFixed 6 (c.2.getD i 0))) ∧
    (∀ x : ℚ, ∃ intPart fracPart, fmtFixed 4 x = intPart ++ "." ++ fracPart ∧
      fracPart.length = 4) ∧
    (∀ x : ℚ, ∃ intPart fracPart, fmtFixed 6 x = intPart ++ "." ++ fracPart ∧
      fracPart.length = 6) := by
  refine ⟨?_, rfl, fun i hi => ?_, fmtFixed_decimals 4, fmtFixed_decimals 6⟩
  · simp only [features_to_csv, List.length_cons, List.length_map, List.length_range]
    omega
  · have hcells : (columns.map fun c =>
        if i < c.2.length then fmtFixed 6 (c.2.getD i 0) else "")
        = columns.map fun c => fmtFixed 6 (c.2.getD i 0) :=
      List.map_congr_left fun c hc => if_pos ((haligned c hc).symm ▸ hi)
    simp only [features_to_csv, List.getElem?_cons_succ, List.getElem?_map,
      List.getElem?_range hi, Option.map_some']
    rw [hcells]

/-- Witness for claim C7 at a concrete input: two timestamps and one
aligned energy column give three rows with header time_s, energy. -/
theorem features_to_csv_spec_witness :
    (features_to_csv [0, 1/2] [("energy", [1/10, 1/2])]).length = 3 ∧
    (features_to_csv [0, 1/2] [("energy", [1/10, 1/2])]).head?
      = some ["time_s", "energy"] := by
  have h := features_to_csv_spec [0, 1/2] [("energy", [1/10, 1/2])]
    (by intro c hc; fin_cases hc; rfl)
  exact ⟨h.1, h.2.1⟩

end BirdMach
